import Mathlib

/-
Verification of musages.py: a tool that scans a directory tree of Python
files, collects from-import statements whose module starts with a target
module name, and counts bare-identifier call sites of the imported names.

The embedding below models the Python AST fragment the tool inspects
(from-import statements, bare import statements, calls, names, attribute
access, and generic containers of child nodes), and translates each
function and visitor class of musages.py into a Lean definition.
-/

/-- Models ast.alias: one imported name together with its optional alias,
as it appears in an import statement. -/
structure PAlias where
  name : String
  asname : Option String := none
deriving Repr, DecidableEq

/-- Model of the Python AST fragment relevant to musages.py.
importFrom models ast.ImportFrom (module is Optional, as in the ast
module, where relative imports carry module = None); importStmt models a
bare ast.Import; name models ast.Name; attr models ast.Attribute; call
models ast.Call with its func child and argument children; other models
any other node together with the list of its children, which the
NodeVisitor generic traversal recurses into. -/
inductive Node where
  | importFrom (module : Option String) (names : List PAlias)
  | importStmt (names : List PAlias)
  | name (id : String)
  | attr (value : Node) (attrName : String)
  | call (func : Node) (args : List Node)
  | other (children : List Node)
deriving Repr

/-- Models Python str.startswith: the code points of the second argument
form a prefix of the code points of the first. -/
def pyStartswith (s p : String) : Bool := p.data.isPrefixOf s.data

/-- Models the Import dataclass of musages.py (lines 13-19): module,
name, and optional asname. -/
structure Import where
  module : String
  name : String
  asname : Option String := none
deriving Repr, DecidableEq

/-- Models Import.id (musages.py line 25): the expression
asname or name, where Python treats both None and the empty string as
falsy. -/
def Import.id (i : Import) : String :=
  match i.asname with
  | some a => if a = "" then i.name else a
  | none => i.name

/-- Models Import.key (musages.py line 31): the string module + "." + name. -/
def Import.key (i : Import) : String := i.module ++ "." ++ i.name

mutual
/-- Models ImportCollector (musages.py lines 34-45) run on a tree:
visit_ImportFrom appends one Import per alias when node.module is truthy
(not None and non-empty) and node.module.startswith(self.name); every
other node is traversed generically into all children. The accumulator
grows in traversal order. -/
def importsOf (nm : String) : Node → List Import
  | .importFrom m names =>
    match m with
    | none => []
    | some mdl =>
      if (mdl != "") && pyStartswith mdl nm then
        names.map (fun a => { module := mdl, name := a.name, asname := a.asname })
      else []
  | .importStmt _ => []
  | .name _ => []
  | .attr v _ => importsOf nm v
  | .call f args => importsOf nm f ++ importsOfList nm args
  | .other cs => importsOfList nm cs
/-- Generic traversal of a list of children for ImportCollector. -/
def importsOfList (nm : String) : List Node → List Import
  | [] => []
  | t :: ts => importsOf nm t ++ importsOfList nm ts
end

/-- Models the dict comprehension at musages.py line 79, seen as a lookup:
later entries of the list overwrite earlier ones for the same id, exactly
as repeated dict assignment does. -/
def dictOf (imports : List Import) (x : String) : Option String :=
  imports.foldl (fun acc i => if i.id == x then some i.key else acc) none

/-- Models the body of CallsCollector.visit_Call (musages.py lines 56-58)
applied to node.func: when the callee is a Name whose id is a key of the
mapping, the mapped fully qualified key is emitted; any other callee shape
emits nothing. -/
def funcHit (ids : String → Option String) : Node → List String
  | .name x =>
    match ids x with
    | some k => [k]
    | none => []
  | _ => []

mutual
/-- Models CallsCollector (musages.py lines 48-59) run on a tree: at each
Call node the funcHit test runs first, then the generic traversal descends
into the callee and the arguments; every other node is traversed
generically. Hits are collected in traversal order. -/
def callsOf (ids : String → Option String) : Node → List String
  | .importFrom _ _ => []
  | .importStmt _ => []
  | .name _ => []
  | .attr v _ => callsOf ids v
  | .call f args => funcHit ids f ++ callsOf ids f ++ callsOfList ids args
  | .other cs => callsOfList ids cs
/-- Generic traversal of a list of children for CallsCollector. -/
def callsOfList (ids : String → Option String) : List Node → List String
  | [] => []
  | t :: ts => callsOf ids t ++ callsOfList ids ts
end

/-- Models one iteration of the loop in get_calls (musages.py lines
76-80): parse the file, collect its imports, build the alias mapping from
the whole file, then scan the same tree for calls. -/
def scan_file (module : String) (tree : Node) : List String :=
  callsOf (dictOf (importsOf module tree)) tree

/-- Models the loop of get_calls (musages.py lines 73-82) over the parse
results of the files found under the root, in glob order: the hits list is
the loop accumulator, and an exception raised by ast.parse on any file
aborts the whole loop, discarding all hits gathered so far. -/
def get_calls_loop (module : String) (hits : List String) :
    List (Except String Node) → Except String (List String)
  | [] => .ok hits
  | f :: fs =>
    match f with
    | .error e => .error e
    | .ok tree => get_calls_loop module (hits ++ scan_file module tree) fs

/-- Models get_calls (musages.py lines 70-82) on the parse results of the
files under the root: starts from an empty hits list and folds the loop
over the files. -/
def get_calls (module : String) (files : List (Except String Node)) :
    Except String (List String) :=
  get_calls_loop module [] files

/-- Models Counter(hits) at musages.py line 98: the count of each key in
the flat hit list. -/
def counter (hits : List String) (k : String) : Nat := hits.count k

/-- The ordering used by Counter.most_common: descending by count. -/
def countDescending (a b : String × Nat) : Prop := b.2 ≤ a.2

instance : DecidableRel countDescending :=
  fun a b => inferInstanceAs (Decidable (b.2 ≤ a.2))

instance : IsTotal (String × Nat) countDescending :=
  ⟨fun a b => Nat.le_total b.2 a.2⟩

instance : IsTrans (String × Nat) countDescending :=
  ⟨fun _ _ _ h1 h2 => Nat.le_trans h2 h1⟩

/-- Models hits.most_common() at musages.py line 103: one pair per
distinct key of the Counter, sorted by descending count (Python's sort is
stable; the claim leaves the tie order unspecified). With the -o option
these pairs are exactly the rows csv.writer.writerows emits, with no
header row (musages.py lines 100-104). -/
def most_common (hits : List String) : List (String × Nat) :=
  List.insertionSort countDescending
    ((hits.dedup).map (fun k => (k, counter hits k)))

/-
Spec-side definitions, written from the words of the specification, used
to state the Import Resolver claims as refinements.
-/

/-- One from-import statement as the spec describes it: a module name as
written in source (optional, as in the ast module) and the list of
imported names. -/
structure FromImportStmt where
  module : Option String
  names : List PAlias
deriving Repr, DecidableEq

mutual
/-- All from-import statements of a tree, in traversal order. -/
def stmtsOf : Node → List FromImportStmt
  | .importFrom m names => [⟨m, names⟩]
  | .importStmt _ => []
  | .name _ => []
  | .attr v _ => stmtsOf v
  | .call f args => stmtsOf f ++ stmtsOfList args
  | .other cs => stmtsOfList cs
/-- All from-import statements of a list of children, in order. -/
def stmtsOfList : List Node → List FromImportStmt
  | [] => []
  | t :: ts => stmtsOf t ++ stmtsOfList ts
end

/-- Spec wording: the statement's module name is non-empty and starts
with the target module name, as a plain string prefix. -/
def stmtMatches (nm : String) (s : FromImportStmt) : Bool :=
  match s.module with
  | none => false
  | some mdl => (mdl != "") && pyStartswith mdl nm

/-- Spec wording: one ImportBinding per imported name of a statement,
preserving the module string, the original name, and the alias if any. -/
def stmtBindings (s : FromImportStmt) : List Import :=
  s.names.map (fun a => { module := s.module.getD "", name := a.name, asname := a.asname })

/-- Spec wording for the Import Resolver: keep exactly the from-import
statements matching the target module name and emit one binding per
imported name of each kept statement, in order. -/
def bindingsSpec (nm : String) (stmts : List FromImportStmt) : List Import :=
  (stmts.filter (stmtMatches nm)).flatMap stmtBindings

/-- Spec wording for the degenerate empty target: a statement is kept
exactly when its module name is non-empty. -/
def nonEmptyModule (s : FromImportStmt) : Bool :=
  match s.module with
  | none => false
  | some mdl => mdl != ""

/-- Spec wording: bindings of every from-import statement with a
non-empty module name, with no condition on the target. -/
def allFromImportBindings (stmts : List FromImportStmt) : List Import :=
  (stmts.filter nonEmptyModule).flatMap stmtBindings

/-
Helper lemmas shared by the claim theorems.
-/

theorem bindingsSpec_append (nm : String) (xs ys : List FromImportStmt) :
    bindingsSpec nm (xs ++ ys) = bindingsSpec nm xs ++ bindingsSpec nm ys := by
  simp [bindingsSpec, List.filter_append]

mutual
theorem importsOf_eq_spec (nm : String) :
    (t : Node) → importsOf nm t = bindingsSpec nm (stmtsOf t)
  | .importFrom m names => by
    cases m with
    | none => simp [importsOf, stmtsOf, bindingsSpec, stmtMatches]
    | some mdl =>
      by_cases h : ((mdl != "") && pyStartswith mdl nm) = true
      · simp [importsOf, stmtsOf, bindingsSpec, stmtMatches, h, stmtBindings]
      · simp [importsOf, stmtsOf, bindingsSpec, stmtMatches, h]
  | .importStmt names => by simp [importsOf, stmtsOf, bindingsSpec]
  | .name x => by simp [importsOf, stmtsOf, bindingsSpec]
  | .attr v a => by
    rw [importsOf, stmtsOf]
    exact importsOf_eq_spec nm v
  | .call f args => by
    rw [importsOf, stmtsOf, bindingsSpec_append, importsOf_eq_spec nm f,
      importsOfList_eq_spec nm args]
  | .other cs => by
    rw [importsOf, stmtsOf]
    exact importsOfList_eq_spec nm cs
theorem importsOfList_eq_spec (nm : String) :
    (ts : List Node) → importsOfList nm ts = bindingsSpec nm (stmtsOfList ts)
  | [] => by simp [importsOfList, stmtsOfList, bindingsSpec]
  | t :: ts => by
    rw [importsOfList, stmtsOfList, bindingsSpec_append, importsOf_eq_spec nm t,
      importsOfList_eq_spec nm ts]
end

theorem pyStartswith_empty (s : String) : pyStartswith s ("") = true := by
  have h : ("".data) = ([] : List Char) := rfl
  simp [pyStartswith, h]

theorem get_calls_loop_error (module : String) (e : String) :
    ∀ (files : List (Except String Node)) (hits : List String),
      Except.error e ∈ files → (get_calls_loop module hits files).isOk = false := by
  intro files
  induction files with
  | nil => intro hits h; cases h
  | cons f fs ih =>
    intro hits h
    cases f with
    | error e2 => simp [get_calls_loop, Except.isOk, Except.toBool]
    | ok tree =>
      have h2 : Except.error e ∈ fs := by
        rcases List.mem_cons.mp h with h1 | h1
        · cases h1
        · exact h1
      simpa [get_calls_loop] using ih _ h2

/-
Concrete files used by the scenario claims.
-/

/-- File A of the end-to-end scenario: from acme.mod import foo as f,
followed by the calls f() and f(). -/
def c1FileA : Node :=
  .other [.importFrom (some "acme.mod") [⟨"foo", some "f"⟩],
    .call (.name "f") [], .call (.name "f") []]

/-- File B of the end-to-end scenario: from acme.mod import foo,
followed by the call foo(). -/
def c1FileB : Node :=
  .other [.importFrom (some "acme.mod") [⟨"foo", none⟩],
    .call (.name "foo") []]

/-- C1: for a root with exactly files A and B as in the end-to-end
scenario and target module acme.mod, the hit list is three occurrences of
acme.mod.foo, and the final aggregate counts acme.mod.foo three times and
every other key zero times. -/
theorem C1_end_to_end_aggregate :
    get_calls ("acme.mod") [Except.ok c1FileA, Except.ok c1FileB] =
      Except.ok ["acme.mod.foo", "acme.mod.foo", "acme.mod.foo"] ∧
    ∀ k : String,
      counter ["acme.mod.foo", "acme.mod.foo", "acme.mod.foo"] k =
        if k = "acme.mod.foo" then 3 else 0 := by
  refine ⟨rfl, ?_⟩
  intro k
  by_cases h : k = "acme.mod.foo"
  · subst h; rfl
  · rw [if_neg h]
    simp [counter, List.count_eq_zero, h]

/-- C2: on every tree and every target string, the Import Resolver emits
exactly the bindings of the from-import statements whose module name is
non-empty and starts with the target, one binding per imported name in
order; and the prefix test is a plain string-prefix match, so target foo
matches modules foo, foo.bar and also foobar. -/
theorem C2_import_resolver_refines_spec :
    (∀ (nm : String) (t : Node), importsOf nm t = bindingsSpec nm (stmtsOf t)) ∧
    importsOf ("foo") (.importFrom (some "foo") [⟨"x", none⟩]) =
      [{ module := "foo", name := "x", asname := none }] ∧
    importsOf ("foo") (.importFrom (some "foo.bar") [⟨"x", none⟩]) =
      [{ module := "foo.bar", name := "x", asname := none }] ∧
    importsOf ("foo") (.importFrom (some "foobar") [⟨"x", none⟩]) =
      [{ module := "foobar", name := "x", asname := none }] :=
  ⟨fun nm t => importsOf_eq_spec nm t, rfl, rfl, rfl⟩

/-- The file of the aliased-import scenario: from target.sub import thing
as t, followed by the calls t() and thing(). -/
def c3File : Node :=
  .other [.importFrom (some "target.sub") [⟨"thing", some "t"⟩],
    .call (.name "t") [], .call (.name "thing") []]

/-- C3: with target target.sub, the file importing thing as t and calling
both t() and thing() produces exactly one hit, keyed target.sub.thing:
the alias map binds only the local identifier t, and the original name
thing is not a key of it. -/
theorem C3_alias_tracked_original_not :
    scan_file ("target.sub") c3File = ["target.sub.thing"] ∧
    dictOf (importsOf ("target.sub") c3File) ("t") = some "target.sub.thing" ∧
    dictOf (importsOf ("target.sub") c3File) ("thing") = none :=
  ⟨rfl, rfl, rfl⟩

/-- The file of the re-import scenario: from m import f as a, then
from m import g as a, then the call a(). -/
def c4File : Node :=
  .other [.importFrom (some "m") [⟨"f", some "a"⟩],
    .importFrom (some "m") [⟨"g", some "a"⟩],
    .call (.name "a") []]

/-- C4: when two bindings share a local identifier the later one wins in
the alias map, with no error; in the concrete re-import file only the hit
m.g is produced for the call a(), never m.f. -/
theorem C4_last_binding_wins :
    (∀ (imports : List Import) (i : Import),
      dictOf (imports ++ [i]) i.id = some i.key) ∧
    scan_file ("m") c4File = ["m.g"] ∧
    ("m.f") ∉ scan_file ("m") c4File := by
  refine ⟨?_, rfl, ?_⟩
  · intro imports i
    simp [dictOf, List.foldl_append]
  · have h : scan_file ("m") c4File = ["m.g"] := rfl
    rw [h]
    decide

/-- The file of the attribute-call scenario: import target, followed by
the call target.thing(). -/
def c5File : Node :=
  .other [.importStmt [⟨"target", none⟩],
    .call (.attr (.name "target") ("thing")) []]

/-- C5: a call whose callee is an attribute access never yields a hit,
and a bare import statement yields no bindings; the concrete file that
imports target bare and then calls target.thing() produces zero hits. -/
theorem C5_attribute_calls_invisible :
    (∀ (ids : String → Option String) (v : Node) (a : String),
      funcHit ids (.attr v a) = []) ∧
    (∀ (nm : String) (names : List PAlias),
      importsOf nm (.importStmt names) = []) ∧
    scan_file ("target") c5File = [] :=
  ⟨fun _ _ _ => rfl, fun _ _ => rfl, rfl⟩

/-- C6: if any file in the tree fails to parse, the whole scan aborts
with the parse error and returns no hit list at all, whatever was
already processed. -/
theorem C6_parse_error_aborts_run (module : String)
    (files : List (Except String Node)) (h : ∃ e, Except.error e ∈ files) :
    (get_calls module files).isOk = false := by
  obtain ⟨e, he⟩ := h
  exact get_calls_loop_error module e files [] he

theorem C6_parse_error_aborts_run_witness :
    Except.error ("invalid syntax") ∈
      ([Except.ok (Node.other []), Except.error ("invalid syntax")] :
        List (Except String Node)) ∧
    (get_calls ("acme.mod")
      [Except.ok (Node.other []), Except.error ("invalid syntax")]).isOk = false :=
  ⟨by simp,
    C6_parse_error_aborts_run ("acme.mod") _ ⟨"invalid syntax", by simp⟩⟩

/-- C7: the aggregate is order-independent: permuting the hit sequence
leaves every per-key count unchanged. -/
theorem C7_aggregate_order_independent (hits hits2 : List String)
    (h : hits.Perm hits2) (k : String) : counter hits k = counter hits2 k :=
  h.count_eq k

theorem C7_aggregate_order_independent_witness :
    (["x.f", "x.g", "x.f"] : List String).Perm (["x.g", "x.f", "x.f"]) ∧
    counter ["x.f", "x.g", "x.f"] ("x.f") = counter ["x.g", "x.f", "x.f"] ("x.f") :=
  ⟨List.Perm.swap ("x.g") ("x.f") (["x.f"]),
    C7_aggregate_order_independent _ _ (List.Perm.swap ("x.g") ("x.f") (["x.f"])) ("x.f")⟩

/-- C8: the CSV rows are the pairs of hits.most_common(): their keys are
exactly the distinct keys of the aggregate, each once (the key list is a
permutation of the deduplicated hit list, which has no duplicates), every
row carries the count of its key, and the rows are sorted by descending
count; nothing else (in particular no header row) is written. -/
theorem C8_csv_rows (hits : List String) :
    ((most_common hits).map Prod.fst).Perm hits.dedup ∧
    hits.dedup.Nodup ∧
    (most_common hits).all (fun p => p.2 == counter hits p.1) = true ∧
    List.Sorted countDescending (most_common hits) := by
  refine ⟨?_, List.nodup_dedup hits, ?_, ?_⟩
  · have h1 : (most_common hits).Perm
        ((hits.dedup).map (fun k => (k, counter hits k))) :=
      List.perm_insertionSort _ _
    have h2 := h1.map Prod.fst
    have h3 : (Prod.fst ∘ fun k : String => (k, counter hits k)) = id := by
      funext k; rfl
    rw [List.map_map, h3, List.map_id] at h2
    exact h2
  · rw [List.all_eq_true]
    intro p hp
    have hmem : p ∈ (hits.dedup).map (fun k => (k, counter hits k)) :=
      (List.perm_insertionSort _ _).mem_iff.mp hp
    obtain ⟨k, _, rfl⟩ := List.mem_map.mp hmem
    simp
  · exact List.sorted_insertionSort _ _

/-- The file of the empty-target scenario: from m import f, followed by
the call f(). -/
def c9File : Node :=
  .other [.importFrom (some "m") [⟨"f", none⟩], .call (.name "f") []]

/-- C9: with the empty string as target, the Import Resolver keeps every
from-import statement with a non-empty module name, so the empty target
degenerates to tracking all from-imports; on the concrete file importing
f from m, the call f() is counted. -/
theorem C9_empty_target_tracks_all :
    (∀ t : Node, importsOf ("") t = allFromImportBindings (stmtsOf t)) ∧
    scan_file ("") c9File = ["m.f"] := by
  refine ⟨?_, rfl⟩
  intro t
  have hpred : ∀ s : FromImportStmt, stmtMatches ("") s = nonEmptyModule s := by
    intro s
    cases s with
    | mk m names =>
      cases m with
      | none => rfl
      | some mdl => simp [stmtMatches, nonEmptyModule, pyStartswith_empty]
  rw [importsOf_eq_spec]
  unfold bindingsSpec allFromImportBindings
  rw [List.filter_congr (fun s _ => hpred s)]

/-- C10: within one file the alias map is built from the whole file
before calls are scanned, so a call to a tracked identifier is counted
even when it appears before the from-import that binds it: for any target
nm matched by the non-empty module mdl, the file consisting of the call
x() followed by the statement from mdl import x yields the single hit
mdl.x. -/
theorem C10_call_counted_before_import (nm mdl x : String)
    (h1 : mdl ≠ "") (h2 : pyStartswith mdl nm = true) :
    scan_file nm (Node.other [Node.call (Node.name x) [],
      Node.importFrom (some mdl) [⟨x, none⟩]]) = [mdl ++ "." ++ x] := by
  have hb : (mdl != "") = true := by simpa using h1
  simp [scan_file, importsOf, importsOfList, callsOf, callsOfList, funcHit,
    dictOf, Import.id, Import.key, hb, h2]

theorem C10_call_counted_before_import_witness :
    ("m" : String) ≠ "" ∧ pyStartswith ("m") ("m") = true ∧
    scan_file ("m") (Node.other [Node.call (Node.name "f") [],
      Node.importFrom (some "m") [⟨"f", none⟩]]) = ["m.f"] :=
  ⟨by decide, rfl,
    C10_call_counted_before_import ("m") ("m") ("f") (by decide) rfl⟩
